import Mathlib

set_option maxHeartbeats 1000000

/-!
Shallow embedding of the I2C register-transaction engine of
`Espressif/MMC5603NJ-I2C/main/i2c_simple_main.c`.

The engine consists of two functions, `i2c_master_read_slave_reg` and
`i2c_master_write_slave_reg`, which build a command link out of ESP-IDF
driver calls (`i2c_master_start`, `i2c_master_write_byte`,
`i2c_master_write`, `i2c_master_read`, `i2c_master_read_byte`,
`i2c_master_stop`), run it once through `i2c_master_cmd_begin`, delete the
link and return the driver status; plus the 16-bit `byte_swap` helper.
The driver itself is external code, modelled as an abstract bus function.
-/

/-- Result codes of the ESP-IDF style API (`esp_err_t`) restricted to the
values relevant to the transaction engine. -/
inductive EspErr where
  | ESP_OK
  | ESP_FAIL
  | ESP_ERR_TIMEOUT
  | ESP_ERR_INVALID_ARG
  deriving DecidableEq

/-- One entry of an I2C command link (`i2c_cmd_handle_t`), one constructor
per driver call the engine uses.  Read destinations are caller pointers
and carry no data at build time, so only lengths and acknowledge
parameters are recorded; a write source buffer is `none` when the caller
passed a null pointer. -/
inductive CmdOp where
  | start
  | writeByte (b : Nat) (ackCheck : Bool)
  | write (data : Option (List Nat)) (len : Nat) (ackCheck : Bool)
  | read (len : Nat) (ackVal : Nat)
  | readByte (ackVal : Nat)
  | stop
  deriving DecidableEq

/-- One primitive bus event: what a command-link entry does on the wire,
byte by byte.  `writeByte` carries the transmitted byte and whether the
master requires the slave's acknowledge; `readByte` carries the
acknowledge level the master answers the received byte with
(`0` = ACK, `1` = NACK). -/
inductive WireOp where
  | start
  | writeByte (b : Nat) (ackRequired : Bool)
  | readByte (ackVal : Nat)
  | stop
  deriving DecidableEq

/-- Expansion of one command-link entry into its wire events, following
the driver contract: a length-`len` buffer read issues `len` single-byte
reads all answered with the same acknowledge level, and a buffer write
transmits the buffer's first `len` bytes each with the same
acknowledge-check flag. -/
def CmdOp.wire : CmdOp → List WireOp
  | .start => [.start]
  | .writeByte b a => [.writeByte b a]
  | .write data len a =>
      match data with
      | some d => (d.take len).map fun b => .writeByte (b % 256) a
      | none => []
  | .read len ackv => List.replicate len (.readByte ackv)
  | .readByte ackv => [.readByte ackv]
  | .stop => [.stop]

/-- Wire events of a whole command link, in order. -/
def descWire (d : List CmdOp) : List WireOp := (d.map CmdOp.wire).flatten

/-- Direction bit `I2C_MASTER_WRITE` (`WRITE_BIT` in the source). -/
def WRITE_BIT : Nat := 0

/-- Direction bit `I2C_MASTER_READ` (`READ_BIT` in the source). -/
def READ_BIT : Nat := 1

/-- `ACK_CHECK_EN`: the master checks the slave's acknowledge. -/
def ACK_CHECK_EN : Bool := true

/-- `ACK_VAL`: acknowledge level answered by the master. -/
def ACK_VAL : Nat := 0

/-- `NACK_VAL`: negative-acknowledge level answered by the master. -/
def NACK_VAL : Nat := 1

/-- Environment model of `i2c_master_cmd_begin`: given the port number,
the built command link and the timeout in ticks, the external driver
returns a status and the bytes it latched into the link's read slots.
The engine is parametric in this function. -/
def BusSem : Type := Nat → List CmdOp → Nat → EspErr × List Nat

/-- Observable outcome of one engine call: the returned status, every
command link passed to `i2c_master_cmd_begin` paired with its tick
timeout, the number of `i2c_cmd_link_create` and `i2c_cmd_link_delete`
calls, and the caller's data buffer after the call (`none` for a null
pointer). -/
structure CallResult where
  ret : EspErr
  began : List (List CmdOp × Nat)
  linksCreated : Nat
  linksDeleted : Nat
  buf : Option (List Nat)
  deriving DecidableEq

/-- Contents of a caller read buffer after the driver stored the received
bytes at its front. -/
def storeRead (b incoming : List Nat) : List Nat :=
  (incoming.take b.length).map (· % 256) ++ b.drop incoming.length

/-- Command link built by `i2c_master_read_slave_reg` for `size ≥ 1`
(source lines 73–88): start; device address shifted left one bit (write
intent), acknowledge checked; register index, acknowledge checked;
repeated start; device address with `READ_BIT`, acknowledge checked; for
`size > 1` a `size - 1` byte buffer read answered with `ACK_VAL`; one
single-byte read answered with `NACK_VAL`; stop.  The `% 256`
truncations are the `uint8_t` conversions at the driver-call boundary. -/
def i2c_master_read_slave_reg_cmd (i2c_addr i2c_reg size : Nat) : List CmdOp :=
  let a := i2c_addr % 256
  let r := i2c_reg % 256
  [CmdOp.start,
   CmdOp.writeByte ((a <<< 1) % 256) ACK_CHECK_EN,
   CmdOp.writeByte r ACK_CHECK_EN,
   CmdOp.start,
   CmdOp.writeByte (((a <<< 1) ||| READ_BIT) % 256) ACK_CHECK_EN]
  ++ (if size > 1 then [CmdOp.read (size - 1) ACK_VAL] else [])
  ++ [CmdOp.readByte NACK_VAL, CmdOp.stop]

/-- `i2c_master_read_slave_reg` (source lines 67–92): for `size == 0` it
returns `ESP_OK` at once, creating no command link and touching no bus
state; otherwise it builds the read command link, runs it exactly once
through `i2c_master_cmd_begin` with timeout `1000 / portTICK_PERIOD_MS`
ticks, deletes the link and returns the driver status unchanged. -/
def i2c_master_read_slave_reg (bus : BusSem) (portTICK_PERIOD_MS : Nat)
    (i2c_num i2c_addr i2c_reg : Nat) (data_rd : Option (List Nat))
    (size : Nat) : CallResult :=
  if size = 0 then
    ⟨EspErr.ESP_OK, [], 0, 0, data_rd⟩
  else
    let cmd := i2c_master_read_slave_reg_cmd i2c_addr i2c_reg size
    let timeout := 1000 / portTICK_PERIOD_MS
    let r := bus i2c_num cmd timeout
    ⟨r.1, [(cmd, timeout)], 1, 1, data_rd.map fun b => storeRead b r.2⟩

/-- Command link built by `i2c_master_write_slave_reg` (source lines
106–114): start; device address shifted left one bit or-ed with
`WRITE_BIT`, acknowledge checked; register index, acknowledge checked;
the first `size` bytes of the caller buffer, acknowledge checked; stop. -/
def i2c_master_write_slave_reg_cmd (i2c_addr i2c_reg : Nat)
    (data_wr : Option (List Nat)) (size : Nat) : List CmdOp :=
  let a := i2c_addr % 256
  let r := i2c_reg % 256
  [CmdOp.start,
   CmdOp.writeByte (((a <<< 1) ||| WRITE_BIT) % 256) ACK_CHECK_EN,
   CmdOp.writeByte r ACK_CHECK_EN,
   CmdOp.write data_wr size ACK_CHECK_EN,
   CmdOp.stop]

/-- `i2c_master_write_slave_reg` (source lines 104–118): unconditionally
builds the write command link, runs it exactly once through
`i2c_master_cmd_begin` with timeout `1000 / portTICK_PERIOD_MS` ticks,
deletes the link and returns the driver status unchanged. -/
def i2c_master_write_slave_reg (bus : BusSem) (portTICK_PERIOD_MS : Nat)
    (i2c_num i2c_addr i2c_reg : Nat) (data_wr : Option (List Nat))
    (size : Nat) : CallResult :=
  let cmd := i2c_master_write_slave_reg_cmd i2c_addr i2c_reg data_wr size
  let timeout := 1000 / portTICK_PERIOD_MS
  let r := bus i2c_num cmd timeout
  ⟨r.1, [(cmd, timeout)], 1, 1, data_wr⟩

/-- `byte_swap` (source lines 173–176): 16-bit byte-order swap
`(data >> 8) | (data << 8)`.  The inner `% 65536` is the `uint16_t`
parameter conversion, the outer one the `uint16_t` return conversion. -/
def byte_swap (data : Nat) : Nat :=
  let d := data % 65536
  ((d >>> 8) ||| (d <<< 8)) % 65536

/-- Bus environment used by the concrete witnesses: it accepts every
command link and delivers the byte `0x42`. -/
def constBusOk : BusSem := fun _ _ _ => (EspErr.ESP_OK, [66])

/-- C4: a Read call with `count = 0` returns success immediately, creates
and runs no command link, and leaves the caller buffer untouched. -/
theorem read_count_zero_noop (bus : BusSem) (p num A reg : Nat)
    (buf : Option (List Nat)) :
    i2c_master_read_slave_reg bus p num A reg buf 0 =
      ⟨EspErr.ESP_OK, [], 0, 0, buf⟩ := rfl

/-- C1: for `count ≥ 1` the Read engine builds and runs exactly one
command link whose wire sequence is: start; address with write intent,
acknowledge checked; register index, acknowledge checked; repeated start
(no stop in between); address with read intent, acknowledge checked;
`count - 1` byte reads answered with ACK; one final byte read answered
with NACK; stop. -/
theorem read_transaction_sequence (bus : BusSem) (p num A reg size : Nat)
    (buf : Option (List Nat)) (h : 1 ≤ size) :
    (i2c_master_read_slave_reg bus p num A reg buf size).began =
      [(i2c_master_read_slave_reg_cmd A reg size, 1000 / p)] ∧
    descWire (i2c_master_read_slave_reg_cmd A reg size) =
      [WireOp.start,
       WireOp.writeByte (((A % 256) <<< 1) % 256) ACK_CHECK_EN,
       WireOp.writeByte (reg % 256) ACK_CHECK_EN,
       WireOp.start,
       WireOp.writeByte ((((A % 256) <<< 1) ||| READ_BIT) % 256) ACK_CHECK_EN]
      ++ List.replicate (size - 1) (WireOp.readByte ACK_VAL)
      ++ [WireOp.readByte NACK_VAL, WireOp.stop] := by
  have hs : ¬ size = 0 := by omega
  refine ⟨by simp [i2c_master_read_slave_reg, hs], ?_⟩
  match size, h with
  | 1, _ =>
      simp [i2c_master_read_slave_reg_cmd, descWire, CmdOp.wire]
  | (n + 2), _ =>
      simp [i2c_master_read_slave_reg_cmd, descWire, CmdOp.wire,
        List.replicate_succ]

/-- Witness for C1 at address `0x30`, register `0x39`, `count = 2`. -/
theorem read_transaction_sequence_witness :
    1 ≤ 2 ∧
    ((i2c_master_read_slave_reg constBusOk 10 1 48 57 (some [0, 0]) 2).began =
      [(i2c_master_read_slave_reg_cmd 48 57 2, 1000 / 10)] ∧
     descWire (i2c_master_read_slave_reg_cmd 48 57 2) =
      [WireOp.start,
       WireOp.writeByte (((48 % 256) <<< 1) % 256) ACK_CHECK_EN,
       WireOp.writeByte (57 % 256) ACK_CHECK_EN,
       WireOp.start,
       WireOp.writeByte ((((48 % 256) <<< 1) ||| READ_BIT) % 256) ACK_CHECK_EN]
      ++ List.replicate (2 - 1) (WireOp.readByte ACK_VAL)
      ++ [WireOp.readByte NACK_VAL, WireOp.stop]) :=
  ⟨by decide, read_transaction_sequence constBusOk 10 1 48 57 2 (some [0, 0]) (by decide)⟩

/-- C2: the Write engine builds and runs exactly one command link whose
wire sequence is: start; address with write intent, acknowledge checked;
register index, acknowledge checked; the `count` payload bytes, each
acknowledge checked; stop — and the sequence contains exactly one start
condition, so no repeated start occurs. -/
theorem write_transaction_sequence (bus : BusSem) (p num A reg size : Nat)
    (data : List Nat) (h : size ≤ data.length) :
    (i2c_master_write_slave_reg bus p num A reg (some data) size).began =
      [(i2c_master_write_slave_reg_cmd A reg (some data) size, 1000 / p)] ∧
    descWire (i2c_master_write_slave_reg_cmd A reg (some data) size) =
      [WireOp.start,
       WireOp.writeByte ((((A % 256) <<< 1) ||| WRITE_BIT) % 256) ACK_CHECK_EN,
       WireOp.writeByte (reg % 256) ACK_CHECK_EN]
      ++ (data.take size).map (fun b => WireOp.writeByte (b % 256) ACK_CHECK_EN)
      ++ [WireOp.stop] ∧
    ((data.take size).map fun b => WireOp.writeByte (b % 256) ACK_CHECK_EN).length
      = size ∧
    (descWire (i2c_master_write_slave_reg_cmd A reg (some data) size)).count
      WireOp.start = 1 := by
  refine ⟨rfl, ?_, ?_, ?_⟩
  · simp [i2c_master_write_slave_reg_cmd, descWire, CmdOp.wire]
  · simp [List.length_take]; omega
  · have hz : ((data.map
        (fun b => WireOp.writeByte (b % 256) ACK_CHECK_EN)).take size).count
        WireOp.start = 0 := by
      rw [List.count_eq_zero]
      intro hmem
      obtain ⟨b, _, hb⟩ := List.mem_map.mp (List.take_subset _ _ hmem)
      exact WireOp.noConfusion hb
    simp [i2c_master_write_slave_reg_cmd, descWire, CmdOp.wire,
      List.count_append, List.count_cons, hz]

/-- Witness for C2 at address `0x30`, register `0x1A`, payload `[0x42]`. -/
theorem write_transaction_sequence_witness :
    1 ≤ ([66] : List Nat).length ∧
    ((i2c_master_write_slave_reg constBusOk 10 1 48 26 (some [66]) 1).began =
      [(i2c_master_write_slave_reg_cmd 48 26 (some [66]) 1, 1000 / 10)] ∧
     descWire (i2c_master_write_slave_reg_cmd 48 26 (some [66]) 1) =
      [WireOp.start,
       WireOp.writeByte ((((48 % 256) <<< 1) ||| WRITE_BIT) % 256) ACK_CHECK_EN,
       WireOp.writeByte (26 % 256) ACK_CHECK_EN]
      ++ (([66] : List Nat).take 1).map
          (fun b => WireOp.writeByte (b % 256) ACK_CHECK_EN)
      ++ [WireOp.stop] ∧
     ((([66] : List Nat).take 1).map
        fun b => WireOp.writeByte (b % 256) ACK_CHECK_EN).length = 1 ∧
     (descWire (i2c_master_write_slave_reg_cmd 48 26 (some [66]) 1)).count
       WireOp.start = 1) :=
  ⟨by decide, write_transaction_sequence constBusOk 10 1 48 26 1 [66] (by decide)⟩

/-- C3: every command link the engine starts — on the Read path or the
Write path, whatever the bus outcome — contains exactly one stop
condition on the wire, and that stop is the final wire event, so it is
issued before the call returns. -/
theorem begun_descriptor_single_stop (bus : BusSem) (p num A reg size : Nat)
    (buf : Option (List Nat)) (d : List CmdOp) (t : Nat)
    (h : (d, t) ∈ (i2c_master_read_slave_reg bus p num A reg buf size).began ∨
         (d, t) ∈ (i2c_master_write_slave_reg bus p num A reg buf size).began) :
    (descWire d).count WireOp.stop = 1 ∧
    ∃ l, descWire d = l ++ [WireOp.stop] := by
  rcases h with h | h
  · by_cases hs : size = 0
    · simp [i2c_master_read_slave_reg, hs] at h
    · have hd : d = i2c_master_read_slave_reg_cmd A reg size := by
        simp [i2c_master_read_slave_reg, hs] at h
        exact h.1
      subst hd
      constructor
      · by_cases h1 : size > 1 <;>
          simp [i2c_master_read_slave_reg_cmd, descWire, CmdOp.wire, h1,
            List.count_append, List.count_cons, List.count_replicate]
      · refine ⟨[CmdOp.start.wire,
          (CmdOp.writeByte (((A % 256) <<< 1) % 256) ACK_CHECK_EN).wire,
          (CmdOp.writeByte (reg % 256) ACK_CHECK_EN).wire,
          CmdOp.start.wire,
          (CmdOp.writeByte ((((A % 256) <<< 1) ||| READ_BIT) % 256)
            ACK_CHECK_EN).wire].flatten
          ++ ((if size > 1 then [CmdOp.read (size - 1) ACK_VAL] else
              []).map CmdOp.wire).flatten
          ++ (CmdOp.readByte NACK_VAL).wire, ?_⟩
        by_cases h1 : size > 1 <;>
          simp [i2c_master_read_slave_reg_cmd, descWire, CmdOp.wire, h1]
  · have hd : d = i2c_master_write_slave_reg_cmd A reg buf size := by
      simp [i2c_master_write_slave_reg] at h
      exact h.1
    subst hd
    constructor
    · cases buf with
      | none =>
          simp [i2c_master_write_slave_reg_cmd, descWire, CmdOp.wire,
            List.count_append, List.count_cons]
      | some data =>
          have hz : ((data.map
              (fun b => WireOp.writeByte (b % 256) ACK_CHECK_EN)).take
              size).count WireOp.stop = 0 := by
            rw [List.count_eq_zero]
            intro hmem
            obtain ⟨b, _, hb⟩ := List.mem_map.mp (List.take_subset _ _ hmem)
            exact WireOp.noConfusion hb
          simp [i2c_master_write_slave_reg_cmd, descWire, CmdOp.wire,
            List.count_append, List.count_cons, hz]
    · refine ⟨[CmdOp.start.wire,
        (CmdOp.writeByte ((((A % 256) <<< 1) ||| WRITE_BIT) % 256)
          ACK_CHECK_EN).wire,
        (CmdOp.writeByte (reg % 256) ACK_CHECK_EN).wire,
        (CmdOp.write buf size ACK_CHECK_EN).wire].flatten, ?_⟩
      simp [i2c_master_write_slave_reg_cmd, descWire, CmdOp.wire]

/-- Witness for C3 on the Read path at address `0x30`, register `0x39`,
`count = 1`. -/
theorem begun_descriptor_single_stop_witness :
    ((i2c_master_read_slave_reg_cmd 48 57 1, 1000 / 10) ∈
       (i2c_master_read_slave_reg constBusOk 10 1 48 57 (some [0]) 1).began ∨
     (i2c_master_read_slave_reg_cmd 48 57 1, 1000 / 10) ∈
       (i2c_master_write_slave_reg constBusOk 10 1 48 57 (some [0]) 1).began) ∧
    ((descWire (i2c_master_read_slave_reg_cmd 48 57 1)).count WireOp.stop = 1 ∧
     ∃ l, descWire (i2c_master_read_slave_reg_cmd 48 57 1) =
       l ++ [WireOp.stop]) :=
  ⟨Or.inl (by decide),
   begun_descriptor_single_stop constBusOk 10 1 48 57 1 (some [0])
     (i2c_master_read_slave_reg_cmd 48 57 1) (1000 / 10)
     (Or.inl (by decide))⟩

/-- C5: for an 8-bit device address `A` the second wire event of the Read
link and of the Write link transmits the byte `(A <<< 1) % 256` (write
intent), and the fifth wire event of the Read link transmits the byte
`((A <<< 1) ||| READ_BIT) % 256` (read intent); the `% 256` is the 8-bit
truncation of the bus byte. -/
theorem address_byte_framing (A : Nat) (hA : A < 256)
    (reg size len : Nat) (data : Option (List Nat)) :
    (descWire (i2c_master_read_slave_reg_cmd A reg size))[1]? =
      some (WireOp.writeByte ((A <<< 1) % 256) ACK_CHECK_EN) ∧
    (descWire (i2c_master_read_slave_reg_cmd A reg size))[4]? =
      some (WireOp.writeByte (((A <<< 1) ||| READ_BIT) % 256) ACK_CHECK_EN) ∧
    (descWire (i2c_master_write_slave_reg_cmd A reg data len))[1]? =
      some (WireOp.writeByte ((A <<< 1) % 256) ACK_CHECK_EN) := by
  have hm : A % 256 = A := Nat.mod_eq_of_lt hA
  refine ⟨?_, ?_, ?_⟩
  · simp [i2c_master_read_slave_reg_cmd, descWire, CmdOp.wire, hm]
  · simp [i2c_master_read_slave_reg_cmd, descWire, CmdOp.wire, hm]
  · cases data <;>
      simp [i2c_master_write_slave_reg_cmd, descWire, CmdOp.wire, hm,
        WRITE_BIT, Nat.or_zero]

/-- Witness for C5 at address `0x30`. -/
theorem address_byte_framing_witness :
    48 < 256 ∧
    ((descWire (i2c_master_read_slave_reg_cmd 48 57 1))[1]? =
      some (WireOp.writeByte ((48 <<< 1) % 256) ACK_CHECK_EN) ∧
     (descWire (i2c_master_read_slave_reg_cmd 48 57 1))[4]? =
      some (WireOp.writeByte (((48 <<< 1) ||| READ_BIT) % 256) ACK_CHECK_EN) ∧
     (descWire (i2c_master_write_slave_reg_cmd 48 57 (some [66]) 1))[1]? =
      some (WireOp.writeByte ((48 <<< 1) % 256) ACK_CHECK_EN)) :=
  ⟨by decide, address_byte_framing 48 (by decide) 57 1 1 (some [66])⟩

/-- C10: a Write call with `count = 0` is not short-circuited: it still
builds and runs one full command link — start, address with write intent
(acknowledge checked), register index (acknowledge checked), zero payload
bytes, stop — and returns the bus-execution status. -/
theorem write_count_zero_full_transaction (bus : BusSem) (p num A reg : Nat)
    (buf : Option (List Nat)) :
    (i2c_master_write_slave_reg bus p num A reg buf 0).began =
      [(i2c_master_write_slave_reg_cmd A reg buf 0, 1000 / p)] ∧
    descWire (i2c_master_write_slave_reg_cmd A reg buf 0) =
      [WireOp.start,
       WireOp.writeByte (((A % 256) <<< 1) % 256) ACK_CHECK_EN,
       WireOp.writeByte (reg % 256) ACK_CHECK_EN,
       WireOp.stop] ∧
    (i2c_master_write_slave_reg bus p num A reg buf 0).ret =
      (bus num (i2c_master_write_slave_reg_cmd A reg buf 0) (1000 / p)).1 := by
  refine ⟨rfl, ?_, rfl⟩
  cases buf <;>
    simp [i2c_master_write_slave_reg_cmd, descWire, CmdOp.wire,
      WRITE_BIT, Nat.or_zero]

/-- Counterexample to C6: a Read call with a null buffer and `count = 1`
is not rejected — against a bus that accepts the link, the engine returns
`ESP_OK` rather than `ESP_ERR_INVALID_ARG`, and it does start a command
link, so bus activity occurs. -/
theorem null_buffer_read_not_rejected :
    (i2c_master_read_slave_reg constBusOk 10 1 48 57 none 1).ret ≠
      EspErr.ESP_ERR_INVALID_ARG ∧
    (i2c_master_read_slave_reg constBusOk 10 1 48 57 none 1).began ≠ [] := by
  decide

/-- Amended C6: the engine performs no null-buffer validation.  A Read or
Write call with a null payload buffer and `count ≥ 1` builds and runs the
transaction descriptor exactly as for a non-null buffer and returns the
bus-execution status unchanged; no Argument Error is produced before bus
activity. -/
theorem null_buffer_passthrough (bus : BusSem) (p num A reg size : Nat)
    (h : 1 ≤ size) :
    (i2c_master_read_slave_reg bus p num A reg none size).ret =
      (bus num (i2c_master_read_slave_reg_cmd A reg size) (1000 / p)).1 ∧
    (i2c_master_read_slave_reg bus p num A reg none size).began =
      [(i2c_master_read_slave_reg_cmd A reg size, 1000 / p)] ∧
    (i2c_master_write_slave_reg bus p num A reg none size).ret =
      (bus num (i2c_master_write_slave_reg_cmd A reg none size) (1000 / p)).1 ∧
    (i2c_master_write_slave_reg bus p num A reg none size).began =
      [(i2c_master_write_slave_reg_cmd A reg none size, 1000 / p)] := by
  have hs : ¬ size = 0 := by omega
  refine ⟨?_, ?_, rfl, rfl⟩ <;> simp [i2c_master_read_slave_reg, hs]

/-- Witness for the amended C6 at address `0x30`, register `0x39`,
`count = 1`. -/
theorem null_buffer_passthrough_witness :
    1 ≤ 1 ∧
    ((i2c_master_read_slave_reg constBusOk 10 1 48 57 none 1).ret =
      (constBusOk 1 (i2c_master_read_slave_reg_cmd 48 57 1) (1000 / 10)).1 ∧
     (i2c_master_read_slave_reg constBusOk 10 1 48 57 none 1).began =
      [(i2c_master_read_slave_reg_cmd 48 57 1, 1000 / 10)] ∧
     (i2c_master_write_slave_reg constBusOk 10 1 48 57 none 1).ret =
      (constBusOk 1 (i2c_master_write_slave_reg_cmd 48 57 none 1)
        (1000 / 10)).1 ∧
     (i2c_master_write_slave_reg constBusOk 10 1 48 57 none 1).began =
      [(i2c_master_write_slave_reg_cmd 48 57 none 1, 1000 / 10)]) :=
  ⟨Nat.le_refl 1, null_buffer_passthrough constBusOk 10 1 48 57 1 (by decide)⟩

/-- C7: once a call reaches bus execution it runs the command link exactly
once (no internal retry), returns the status of that single execution
unchanged, and creates and deletes exactly one command link on success and
failure paths alike.  A Read reaches bus execution exactly when
`count ≥ 1`; a Write always does, `count = 0` included. -/
theorem no_retry_single_execution (bus : BusSem) (p num A reg size : Nat)
    (buf : Option (List Nat)) :
    (1 ≤ size →
     (i2c_master_read_slave_reg bus p num A reg buf size).began.length = 1 ∧
     (i2c_master_read_slave_reg bus p num A reg buf size).ret =
       (bus num (i2c_master_read_slave_reg_cmd A reg size) (1000 / p)).1 ∧
     (i2c_master_read_slave_reg bus p num A reg buf size).linksCreated = 1 ∧
     (i2c_master_read_slave_reg bus p num A reg buf size).linksDeleted = 1) ∧
    ((i2c_master_write_slave_reg bus p num A reg buf size).began.length = 1 ∧
     (i2c_master_write_slave_reg bus p num A reg buf size).ret =
       (bus num (i2c_master_write_slave_reg_cmd A reg buf size) (1000 / p)).1 ∧
     (i2c_master_write_slave_reg bus p num A reg buf size).linksCreated = 1 ∧
     (i2c_master_write_slave_reg bus p num A reg buf size).linksDeleted = 1) := by
  refine ⟨fun h => ?_, rfl, rfl, rfl, rfl⟩
  have hs : ¬ size = 0 := by omega
  refine ⟨?_, ?_, ?_, ?_⟩ <;> simp [i2c_master_read_slave_reg, hs]

/-- Witness for C7 at address `0x30`, register `0x39`: the Read facts at
`count = 1` with the hypothesis discharged, and the Write facts at
`count = 0`, the case with no read counterpart. -/
theorem no_retry_single_execution_witness :
    1 ≤ 1 ∧
    (((i2c_master_read_slave_reg constBusOk 10 1 48 57 (some [0]) 1).began.length
        = 1 ∧
      (i2c_master_read_slave_reg constBusOk 10 1 48 57 (some [0]) 1).ret =
        (constBusOk 1 (i2c_master_read_slave_reg_cmd 48 57 1) (1000 / 10)).1 ∧
      (i2c_master_read_slave_reg constBusOk 10 1 48 57
        (some [0]) 1).linksCreated = 1 ∧
      (i2c_master_read_slave_reg constBusOk 10 1 48 57
        (some [0]) 1).linksDeleted = 1) ∧
     ((i2c_master_write_slave_reg constBusOk 10 1 48 57 (some [0]) 0).began.length
        = 1 ∧
      (i2c_master_write_slave_reg constBusOk 10 1 48 57 (some [0]) 0).ret =
        (constBusOk 1 (i2c_master_write_slave_reg_cmd 48 57 (some [0]) 0)
          (1000 / 10)).1 ∧
      (i2c_master_write_slave_reg constBusOk 10 1 48 57
        (some [0]) 0).linksCreated = 1 ∧
      (i2c_master_write_slave_reg constBusOk 10 1 48 57
        (some [0]) 0).linksDeleted = 1)) :=
  ⟨Nat.le_refl 1,
   (no_retry_single_execution constBusOk 10 1 48 57 1 (some [0])).1 (by decide),
   (no_retry_single_execution constBusOk 10 1 48 57 0 (some [0])).2⟩

/-- C8: every command link the engine passes to the blocking
`i2c_master_cmd_begin` step carries the fixed timeout `1000 /
portTICK_PERIOD_MS` ticks; whenever the tick period divides 1000, that
bound equals exactly 1000 milliseconds. -/
theorem timeout_bound_1000 (bus : BusSem) (p num A reg size : Nat)
    (buf : Option (List Nat)) (d : List CmdOp) (t : Nat)
    (hdvd : p ∣ 1000)
    (h : (d, t) ∈ (i2c_master_read_slave_reg bus p num A reg buf size).began ∨
         (d, t) ∈ (i2c_master_write_slave_reg bus p num A reg buf size).began) :
    t = 1000 / p ∧ t * p = 1000 := by
  have ht : t = 1000 / p := by
    rcases h with h | h
    · by_cases hs : size = 0
      · simp [i2c_master_read_slave_reg, hs] at h
      · simp [i2c_master_read_slave_reg, hs] at h
        exact h.2
    · simp [i2c_master_write_slave_reg] at h
      exact h.2
  exact ⟨ht, by rw [ht]; exact Nat.div_mul_cancel hdvd⟩

/-- Witness for C8 with tick period 10 ms on the Read path. -/
theorem timeout_bound_1000_witness :
    (10 : Nat) ∣ 1000 ∧
    ((i2c_master_read_slave_reg_cmd 48 57 1, 1000 / 10) ∈
       (i2c_master_read_slave_reg constBusOk 10 1 48 57 (some [0]) 1).began ∨
     (i2c_master_read_slave_reg_cmd 48 57 1, 1000 / 10) ∈
       (i2c_master_write_slave_reg constBusOk 10 1 48 57 (some [0]) 1).began) ∧
    (1000 / 10 = 1000 / 10 ∧ 1000 / 10 * 10 = 1000) :=
  ⟨⟨100, rfl⟩, Or.inl (by decide),
   timeout_bound_1000 constBusOk 10 1 48 57 1 (some [0])
     (i2c_master_read_slave_reg_cmd 48 57 1) (1000 / 10) ⟨100, rfl⟩
     (Or.inl (by decide))⟩

/-- Disjoint-bit decomposition: or-ing a value below `2 ^ n` with a
multiple of `2 ^ n` is addition. -/
theorem lor_shift_add : ∀ (n x m : Nat), x < 2 ^ n →
    x ||| 2 ^ n * m = x + 2 ^ n * m := by
  intro n
  induction n with
  | zero =>
      intro x m hx
      simp [Nat.pow_zero] at hx ⊢
      subst hx
      simp [Nat.zero_or]
  | succ k ih =>
      intro x m hx
      have hx2 : x >>> 1 < 2 ^ k := by
        rw [Nat.shiftRight_one]
        rw [Nat.pow_succ] at hx
        omega
      have hbit : Nat.bit (decide (x % 2 = 1)) (x >>> 1) = x :=
        Nat.bit_decide_mod_two_eq_one_shiftRight_one x
      have hbit2 : Nat.bit false (2 ^ k * m) = 2 ^ (k + 1) * m := by
        simp [Nat.bit_val, Nat.pow_succ]
        ring
      calc x ||| 2 ^ (k + 1) * m
          = Nat.bit (decide (x % 2 = 1)) (x >>> 1) |||
              Nat.bit false (2 ^ k * m) := by rw [hbit, hbit2]
        _ = Nat.bit (decide (x % 2 = 1) || false)
              ((x >>> 1) ||| 2 ^ k * m) := Nat.lor_bit _ _ _ _
        _ = Nat.bit (decide (x % 2 = 1)) ((x >>> 1) + 2 ^ k * m) := by
              rw [Bool.or_false, ih _ _ hx2]
        _ = x + 2 ^ (k + 1) * m := by
              have hx3 : 2 * (x >>> 1) + (decide (x % 2 = 1)).toNat = x := by
                have hb := hbit
                rwa [Nat.bit_val] at hb
              rw [Nat.bit_val, Nat.pow_succ]
              have h4 : 2 ^ k * 2 * m = 2 * (2 ^ k * m) := by ring
              rw [h4]
              omega

/-- Specialisation of `lor_shift_add` to bytes. -/
theorem lor256_add (x m : Nat) (hx : x < 256) :
    x ||| 256 * m = x + 256 * m := by
  have h8 : (2 : Nat) ^ 8 = 256 := by norm_num
  rw [← h8] at hx ⊢
  exact lor_shift_add 8 x m hx

/-- Closed form of `byte_swap` on 16-bit values. -/
theorem byte_swap_eq (d : Nat) (h : d < 65536) :
    byte_swap d = 256 * (d % 256) + d / 256 := by
  simp only [byte_swap]
  rw [Nat.mod_eq_of_lt h, Nat.shiftRight_eq_div_pow, Nat.shiftLeft_eq]
  have h8 : (2 : Nat) ^ 8 = 256 := by norm_num
  rw [h8]
  have hq : d / 256 < 256 := by omega
  have hsplit : d * 256 = 256 * (256 * (d / 256) + d % 256) := by omega
  rw [hsplit, lor256_add _ _ hq]
  omega

/-- C9: for every 16-bit value, `byte_swap` computes the 16-bit truncation
of `(d >> 8) | (d << 8)`, its low byte is the argument's high byte and its
high byte the argument's low byte, and applying it twice is the
identity. -/
theorem byte_swap_correct (d : Nat) (h : d < 65536) :
    byte_swap d % 256 = d / 256 ∧
    byte_swap d / 256 = d % 256 ∧
    byte_swap d = ((d >>> 8) ||| (d <<< 8)) % 65536 ∧
    byte_swap (byte_swap d) = d := by
  have e := byte_swap_eq d h
  have hq : d / 256 < 256 := by omega
  refine ⟨by omega, by omega, ?_, ?_⟩
  · simp only [byte_swap]
    rw [Nat.mod_eq_of_lt h]
  · have hlt : byte_swap d < 65536 := by omega
    rw [byte_swap_eq _ hlt, e]
    omega

/-- Witness for C9 at `d = 0xBEEF` (`byte_swap` gives `0xEFBE`). -/
theorem byte_swap_correct_witness :
    48879 < 65536 ∧
    (byte_swap 48879 % 256 = 48879 / 256 ∧
     byte_swap 48879 / 256 = 48879 % 256 ∧
     byte_swap 48879 = ((48879 >>> 8) ||| (48879 <<< 8)) % 65536 ∧
     byte_swap (byte_swap 48879) = 48879) :=
  ⟨by decide, byte_swap_correct 48879 (by decide)⟩
